import Mathlib

/-!
# Verification of the quantlib-examples curve scripts

Shallow embedding of the Python sources `src/wirp.py` and `src/curve_s45.py`.

Conventions of the embedding:
* QuantLib dates are serial numbers, modelled as `ℤ`; `d2 - d1` is the actual
  day count between two dates, exactly as QuantLib's `Date` subtraction.
* Python floats are modelled as exact rationals `ℚ`.
* A QuantLib calendar, for the purposes of the compounding loop, is its
  business-day predicate; `businessDayList` enumerates the business days of a
  closed date interval, as `ql.Calendar.businessDayList` does.
* Mutable `ql.SimpleQuote` objects are modelled by a heap: the registry maps a
  ticker to a quote id (object identity), and a heap function maps ids to the
  current value.  `SimpleQuote.setValue` is a pointwise heap update.
* External collaborators (the market-data provider, the holiday provider,
  QuantLib's swap pricer `fairRate`, and `Calendar.advance`) are parameters of
  the functions that call them.
* Python runtime failures are modelled with `PyResult`; the unbounded `while`
  loop of the Newton solver is modelled with explicit fuel, `none` meaning the
  loop is still running after the given number of iterations.
-/

/-- Runtime errors the embedded Python code can raise. -/
inductive PyErr where
  | zeroDivisionError
  | keyError
  | indexError
deriving DecidableEq, Repr

/-- Result of a Python computation: a value or a raised error. -/
inductive PyResult (α : Type) where
  | ok (a : α)
  | error (e : PyErr)
deriving DecidableEq, Repr

/-! ## Quote registry (`src/wirp.py`, class `Quotes`, lines 8-26)

`_data : dict[str, ql.SimpleQuote]` is modelled as an association list from
ticker to quote id plus a heap from id to value; `next` is the next fresh id. -/

structure QuotesState where
  table : List (String × ℕ)
  heap : ℕ → ℚ
  next : ℕ

/-- `Quotes.get` (wirp.py lines 12-16): return the registered quote, creating a
fresh `ql.SimpleQuote(0.0)` first when the ticker is not yet registered. -/
def Quotes.get (s : QuotesState) (ticker : String) : ℕ × QuotesState :=
  match s.table.lookup ticker with
  | some i => (i, s)
  | none =>
      (s.next,
        { table := s.table ++ [(ticker, s.next)],
          heap := fun j => if j = s.next then 0 else s.heap j,
          next := s.next + 1 })

/-- `Quotes.set` (wirp.py lines 18-19): `self.get(ticker).setValue(value)`. -/
def Quotes.set (s : QuotesState) (ticker : String) (value : ℚ) : QuotesState :=
  let r := Quotes.get s ticker
  { r.2 with heap := fun j => if j = r.1 then value else r.2.heap j }

/-- `Quotes.update` (wirp.py lines 21-26), applied to the rows of the provider
response: `self.set(row.security, row.px_last)` for each returned row. -/
def Quotes.update (s : QuotesState) (rows : List (String × ℚ)) : QuotesState :=
  rows.foldl (fun acc row => Quotes.set acc row.1 row.2) s

namespace S45

/-- `Quotes.get` of `src/curve_s45.py` (lines 13-16); textually the same
lookup-or-create logic as the wirp.py variant. -/
def Quotes.get (s : QuotesState) (ticker : String) : ℕ × QuotesState :=
  match s.table.lookup ticker with
  | some i => (i, s)
  | none =>
      (s.next,
        { table := s.table ++ [(ticker, s.next)],
          heap := fun j => if j = s.next then 0 else s.heap j,
          next := s.next + 1 })

/-- `Quotes.update` of `src/curve_s45.py` (lines 18-25): writes
`self.quotes[ticker].setValue(level)` row by row, so a row whose security is
not registered raises `KeyError` instead of creating a quote. -/
def Quotes.update (s : QuotesState) : List (String × ℚ) → PyResult QuotesState
  | [] => PyResult.ok s
  | (ticker, level) :: rest =>
      match s.table.lookup ticker with
      | none => PyResult.error PyErr.keyError
      | some i =>
          Quotes.update
            { s with heap := fun j => if j = i then level else s.heap j } rest

end S45

/-! ## Calendar registry (`src/wirp.py`, class `Calendars`, lines 32-55)

`Calendars.get` builds a `ql.BespokeCalendar`: one holiday fetch from the
external provider, weekend days `1` (Sunday) and `7` (Saturday) in QuantLib's
weekday numbering, then the fetched holiday dates.  The external holiday-data
provider is a parameter `provider : String → List ℤ` giving the holiday dates
returned for a settlement-calendar code. -/

structure BespokeCalendar where
  name : String
  weekends : List ℕ
  holidays : List ℤ
deriving DecidableEq, Repr

structure CalendarsState where
  table : List (String × BespokeCalendar)
deriving DecidableEq, Repr

/-- `Calendars.get` (wirp.py lines 36-55).  The third component of the result
counts the provider calls the invocation performed (0 on a cache hit, 1 on a
miss). -/
def Calendars.get (provider : String → List ℤ) (s : CalendarsState) (id : String) :
    BespokeCalendar × CalendarsState × ℕ :=
  match s.table.lookup id with
  | some c => (c, s, 0)
  | none =>
      let calendar : BespokeCalendar :=
        { name := id, weekends := [1, 7], holidays := provider id }
      (calendar, ⟨s.table ++ [(id, calendar)]⟩, 1)

/-! ## Day counting and compounding (`src/wirp.py`, lines 213-224) -/

/-- A calendar, as the compounding loop consumes it: its business-day
predicate. -/
structure Calendar where
  isBusinessDay : ℤ → Bool

/-- `ql.Calendar.businessDayList(d1, d2)`: the business days of the closed
interval `[d1, d2]` in increasing order (empty when `d2 < d1`). -/
def businessDayList (calendar : Calendar) (d1 d2 : ℤ) : List ℤ :=
  ((List.range (d2 - d1 + 1).toNat).map (fun k => d1 + (k : ℤ))).filter
    (fun d => calendar.isBusinessDay d)

/-- `get_compound_factor` (wirp.py lines 213-224): simple daily compounding at
rate `rate` with Actual/360 accrual over the business days from
`effective_date` through `maturity_date - 1`, with `maturity_date` appended. -/
def get_compound_factor (rate : ℚ) (effective_date maturity_date : ℤ)
    (calendar : Calendar) : ℚ :=
  let dates :=
    businessDayList calendar effective_date (maturity_date - 1) ++ [maturity_date]
  (dates.dropLast.zip dates.tail).foldl
    (fun result p => result * (1 + rate * ((p.2 - p.1 : ℤ) : ℚ) / 360)) 1

/-! ## The synthetic swap and the implied-rate solver
(`src/wirp.py`, lines 190-260)

`ql.OvernightIndex`, `Curve` and `ql.OvernightIndexedSwap` are records of the
constructor arguments the source passes; QuantLib's pricing of the synthetic
swap (`swap.fairRate()`) is an external computation and is a parameter
`fairRate : OvernightIndexedSwap → ℚ` of the solver. -/

structure OvernightIndex where
  name : String
  settlementDays : ℕ
  handle : ℕ
deriving DecidableEq, Repr

/-- The `Curve` dataclass (wirp.py lines 61-67); the bootstrapped
`ql.PiecewiseLogCubicDiscount` object and the helper list are opaque here. -/
structure Curve where
  handle : ℕ
  disc_handle : ℕ
  index : OvernightIndex
  helpers : List ℕ
  curve : ℕ
deriving DecidableEq, Repr

/-- The arguments `make_fed_funds_swap` passes to `ql.MakeOIS`. -/
structure OvernightIndexedSwap where
  swapTenor : String
  overnightIndex : OvernightIndex
  fixedRate : ℚ
  effectiveDate : ℤ
  terminationDate : ℤ
  paymentFrequency : String
  paymentLag : ℕ
  fixedLegDayCount : String
  discountingTermStructure : ℕ
  telescopicValueDates : Bool
deriving DecidableEq, Repr

/-- `make_fed_funds_swap` (wirp.py lines 190-210): a synthetic one-day-tenor
overnight-indexed swap over `[effective_date, maturity_date]`, fixed leg
Actual/360, payment lag 2, discounted on `sofr_handle`. -/
def make_fed_funds_swap (index : OvernightIndex) (effective_date maturity_date : ℤ)
    (sofr_handle : ℕ) : OvernightIndexedSwap :=
  { swapTenor := "1D",
    overnightIndex := index,
    fixedRate := 5 / 100,
    effectiveDate := effective_date,
    terminationDate := maturity_date,
    paymentFrequency := "Annual",
    paymentLag := 2,
    fixedLegDayCount := "Actual360",
    discountingTermStructure := sofr_handle,
    telescopicValueDates := false }

/-- The Newton loop of `get_implied_rate` (wirp.py lines 249-258), with
explicit fuel.  `none` means the `while` loop is still running after `fuel`
checks of its condition; `PyErr.zeroDivisionError` mirrors Python's behaviour
when the central finite-difference denominator `dx_dy` is zero. -/
def newton_iterate (cf : ℚ → ℚ) (tgt precision h : ℚ) :
    ℕ → ℚ → Option (PyResult ℚ)
  | 0, _ => none
  | Nat.succ n, guess =>
      if |cf guess - tgt| ≤ precision then some (PyResult.ok guess)
      else
        let dx_dy := (cf (guess + h) - cf (guess - h)) / (2 * h)
        if dx_dy = 0 then some (PyResult.error PyErr.zeroDivisionError)
        else newton_iterate cf tgt precision h n (guess - (cf guess - tgt) / dx_dy)

/-- `get_implied_rate` (wirp.py lines 227-260).  The Python defaults are
`precision = 1e-7` and `h = 1e-6`; both are explicit parameters here, as is
the loop fuel. -/
def get_implied_rate (fairRate : OvernightIndexedSwap → ℚ) (curve : Curve)
    (prior_implied_rate : ℚ) (effective_date maturity_date : ℤ)
    (calendar : Calendar) (tgt_compound_factor : Option ℚ)
    (precision h : ℚ) (fuel : ℕ) : Option (PyResult ℚ) :=
  let tgt :=
    match tgt_compound_factor with
    | none =>
        let swap := make_fed_funds_swap curve.index effective_date maturity_date
          curve.disc_handle
        1 + fairRate swap * ((maturity_date - effective_date : ℤ) : ℚ) / 360
    | some t => t
  newton_iterate
    (fun g => get_compound_factor g effective_date maturity_date calendar)
    tgt precision h fuel prior_implied_rate

/-- The target compound factor `get_implied_rate` iterates towards, as resolved
from its `tgt_compound_factor` argument. -/
def resolve_target (fairRate : OvernightIndexedSwap → ℚ) (curve : Curve)
    (effective_date maturity_date : ℤ) : Option ℚ → ℚ
  | none =>
      1 + fairRate
          (make_fed_funds_swap curve.index effective_date maturity_date
            curve.disc_handle)
        * ((maturity_date - effective_date : ℤ) : ℚ) / 360
  | some t => t

/-! ## Tenor-bucket selection (`src/wirp.py`, lines 262-306)

`spot_date` (today advanced 2 business days on the FD calendar) and
`calendar.advance(spot_date, ql.Period(tenor))` are external QuantLib calendar
arithmetic; they enter as the parameters `spot_date` and `advance`. -/

/-- The `preferred_tickers` table of `get_cur_implied_on_ticker`
(wirp.py lines 266-279), ordered by increasing tenor. -/
def preferred_tickers : List (String × String) :=
  [("1W", "USSO1Z Curncy"),
   ("2W", "USSO2Z Curncy"),
   ("3W", "USSO3Z Curncy"),
   ("1M", "USSOA Curncy"),
   ("2M", "USSOB Curncy"),
   ("3M", "USSOC Curncy"),
   ("4M", "USSOD Curncy"),
   ("5M", "USSOE Curncy"),
   ("6M", "USSOF Curncy"),
   ("9M", "USSOI Curncy"),
   ("12M", "USSO1 Curncy"),
   ("18M", "USSO1F Curncy")]

/-- `get_cur_implied_on_ticker` (wirp.py lines 262-285): take the first policy
date strictly after spot (indexing `[0]` of the filtered list raises
`IndexError` when it is empty), then return the first preferred tenor whose
advance from spot does not pass that date, or `none` when every tenor does. -/
def get_cur_implied_on_ticker (spot_date : ℤ) (advance : String → ℤ)
    (policy_dates : List ℤ) : PyResult (Option (String × String)) :=
  match (policy_dates.filter (fun date => spot_date < date)).head? with
  | none => PyResult.error PyErr.indexError
  | some first_policy_date =>
      PyResult.ok
        (preferred_tickers.find? (fun p => advance p.1 ≤ first_policy_date))

/-- Selection as claim C7 words it, differing from the source in one place:
the driving policy date is the first one on or AFTER spot (`spot_date ≤ date`)
rather than strictly after it. -/
def get_cur_implied_on_ticker_claim (spot_date : ℤ) (advance : String → ℤ)
    (policy_dates : List ℤ) : PyResult (Option (String × String)) :=
  match (policy_dates.filter (fun date => spot_date ≤ date)).head? with
  | none => PyResult.error PyErr.indexError
  | some first_policy_date =>
      PyResult.ok
        (preferred_tickers.find? (fun p => advance p.1 ≤ first_policy_date))

/-- The fallback at wirp.py line 306: when the selector returns `None` the
script uses the value of the `FEDL01 Index` quote, otherwise the selected
`(tenor, ticker)` pair itself. -/
def cur_implied_on_rate (fedl01 : ℚ) :
    Option (String × String) → ℚ ⊕ (String × String)
  | none => Sum.inl fedl01
  | some p => Sum.inr p

/-! ## Helper lemmas -/

lemma lookup_mem {α β : Type} [BEq α] [LawfulBEq α] {l : List (α × β)} {a : α}
    {b : β} (h : l.lookup a = some b) : (a, b) ∈ l := by
  induction l with
  | nil => simp [List.lookup] at h
  | cons p rest ih =>
      obtain ⟨k, v⟩ := p
      rw [List.lookup_cons] at h
      by_cases hk : a = k
      · subst hk
        simp at h
        subst h
        exact List.mem_cons_self _ _
      · have hbeq : (a == k) = false := beq_false_of_ne hk
        rw [hbeq] at h
        exact List.mem_cons_of_mem _ (ih h)

/-- Two tickers registered under the same quote id are equal when the table
maps tickers to ids injectively. -/
lemma lookup_inj {l : List (String × ℕ)} {t₁ t₂ : String} {i : ℕ}
    (hnodup : (l.map Prod.snd).Nodup)
    (h₁ : l.lookup t₁ = some i) (h₂ : l.lookup t₂ = some i) : t₁ = t₂ := by
  have hm₁ := lookup_mem h₁
  have hm₂ := lookup_mem h₂
  have := List.inj_on_of_nodup_map hnodup hm₁ hm₂ rfl
  exact congrArg Prod.fst this

lemma lookup_append_of_none {α β : Type} [BEq α] {l₁ l₂ : List (α × β)} {a : α}
    (h : l₁.lookup a = none) : (l₁ ++ l₂).lookup a = l₂.lookup a := by
  induction l₁ with
  | nil => rfl
  | cons p rest ih =>
      obtain ⟨k, v⟩ := p
      cases hbeq : a == k with
      | true => simp [List.lookup_cons, hbeq] at h
      | false =>
          simp only [List.lookup_cons, hbeq] at h
          simpa [List.lookup_cons, hbeq] using ih h

/-- Zipping a list against its own tail is unchanged by first dropping the
last element: the zip truncates there anyway. -/
lemma dropLast_zip_tail {α : Type} :
    ∀ l : List α, l.dropLast.zip l.tail = l.zip l.tail := by
  have haux : ∀ (l₁ : List α) (l₂ : List α), l₂.length < l₁.length →
      l₁.dropLast.zip l₂ = l₁.zip l₂ := by
    intro l₁
    induction l₁ with
    | nil => intro l₂ h; simp at h
    | cons a t ih =>
        intro l₂ h
        cases l₂ with
        | nil => simp
        | cons b t₂ =>
            cases t with
            | nil => simp at h
            | cons c t₃ =>
                have hlt : t₂.length < (c :: t₃).length := by
                  simpa using Nat.lt_of_succ_lt_succ h
                calc ((a :: c :: t₃).dropLast).zip (b :: t₂)
                    = (a, b) :: ((c :: t₃).dropLast.zip t₂) := by
                      simp [List.dropLast]
                  _ = (a, b) :: ((c :: t₃).zip t₂) := by rw [ih _ hlt]
                  _ = (a :: c :: t₃).zip (b :: t₂) := by simp
  intro l
  cases l with
  | nil => rfl
  | cons a t => exact haux _ _ (by simp)

lemma foldl_mul_factor (f : ℤ × ℤ → ℚ) :
    ∀ (l : List (ℤ × ℤ)) (a : ℚ),
      l.foldl (fun acc p => acc * f p) a = a * (l.map f).prod := by
  intro l
  induction l with
  | nil => intro a; simp
  | cons p rest ih =>
      intro a
      simp only [List.foldl_cons, List.map_cons, List.prod_cons]
      rw [ih]
      ring

/-- If the Newton loop of `get_implied_rate` returns a rate, the exit
condition of the `while` loop holds at it. -/
lemma newton_iterate_ok (cf : ℚ → ℚ) (tgt precision h : ℚ) :
    ∀ (n : ℕ) (g r : ℚ),
      newton_iterate cf tgt precision h n g = some (PyResult.ok r) →
      |cf r - tgt| ≤ precision := by
  intro n
  induction n with
  | zero => intro g r hr; simp [newton_iterate] at hr
  | succ n ih =>
      intro g r hr
      rw [newton_iterate] at hr
      by_cases hc : |cf g - tgt| ≤ precision
      · rw [if_pos hc] at hr
        obtain ⟨rfl⟩ : g = r := by simpa using hr
        exact hc
      · rw [if_neg hc] at hr
        by_cases hd : (cf (g + h) - cf (g - h)) / (2 * h) = 0
        · rw [if_pos hd] at hr; simp at hr
        · rw [if_neg hd] at hr
          exact ih _ _ hr

/-- When no rate satisfies the exit condition, the Newton loop never returns a
value: for every iteration count it is either still running or has raised
`ZeroDivisionError`. -/
lemma newton_iterate_no_exit (cf : ℚ → ℚ) (tgt precision h : ℚ)
    (hall : ∀ g : ℚ, ¬ |cf g - tgt| ≤ precision) :
    ∀ (n : ℕ) (g : ℚ),
      newton_iterate cf tgt precision h n g = none ∨
      newton_iterate cf tgt precision h n g =
        some (PyResult.error PyErr.zeroDivisionError) := by
  intro n
  induction n with
  | zero => intro g; left; rfl
  | succ n ih =>
      intro g
      rw [newton_iterate, if_neg (hall g)]
      by_cases hd : (cf (g + h) - cf (g - h)) / (2 * h) = 0
      · right; rw [if_pos hd]
      · rw [if_neg hd]; exact ih _

/-- A successful `find?` splits its list at the first hit. -/
lemma find?_split {α : Type} {p : α → Bool} {l : List α} {a : α}
    (h : l.find? p = some a) :
    ∃ l₁ l₂, l = l₁ ++ a :: l₂ ∧ (∀ x ∈ l₁, ¬ p x) ∧ p a := by
  induction l with
  | nil => simp at h
  | cons b rest ih =>
      by_cases hb : p b
      · rw [List.find?_cons_of_pos _ hb] at h
        obtain ⟨rfl⟩ : b = a := by simpa using h
        exact ⟨[], rest, by simp, by simp, hb⟩
      · rw [List.find?_cons_of_neg _ (by simpa using hb)] at h
        obtain ⟨l₁, l₂, hsplit, hfail, hp⟩ := ih h
        refine ⟨b :: l₁, l₂, by simp [hsplit], ?_, hp⟩
        intro x hx
        rcases List.mem_cons.mp hx with rfl | hx
        · simpa using hb
        · exact hfail x hx

/-- On rows whose securities are all registered, the curve_s45 update raises
nothing and performs exactly the writes of the wirp.py update. -/
lemma S45_update_ok :
    ∀ (rows : List (String × ℚ)) (s : QuotesState),
      (∀ p ∈ rows, (s.table.lookup p.1).isSome) →
      S45.Quotes.update s rows = PyResult.ok (Quotes.update s rows) := by
  intro rows
  induction rows with
  | nil => intro s _; rfl
  | cons row rest ih =>
      intro s hreg
      obtain ⟨t, v⟩ := row
      obtain ⟨i, hi⟩ := Option.isSome_iff_exists.mp
        (hreg (t, v) (List.mem_cons_self _ _))
      have hset : Quotes.set s t v =
          { s with heap := fun j => if j = i then v else s.heap j } := by
        simp [Quotes.set, Quotes.get, hi]
      rw [S45.Quotes.update, hi]
      show S45.Quotes.update _ rest = PyResult.ok (Quotes.update (Quotes.set s t v) rest)
      rw [hset]
      exact ih _ (fun p hp => by simpa using hreg p (List.mem_cons_of_mem _ hp))

/-- The wirp.py update leaves untouched the value of a registered quote for
which the response has no row, as long as every row's security is registered
and the table maps tickers to quote ids injectively. -/
lemma update_preserves_missing {t : String} {i : ℕ} :
    ∀ (rows : List (String × ℚ)) (s : QuotesState),
      (s.table.map Prod.snd).Nodup →
      s.table.lookup t = some i →
      (∀ p ∈ rows, p.1 ≠ t) →
      (∀ p ∈ rows, (s.table.lookup p.1).isSome) →
      (Quotes.update s rows).heap i = s.heap i := by
  intro rows
  induction rows with
  | nil => intro s _ _ _ _; rfl
  | cons row rest ih =>
      intro s hnodup ht hmiss hreg
      obtain ⟨t', v⟩ := row
      obtain ⟨j, hj⟩ := Option.isSome_iff_exists.mp
        (hreg (t', v) (List.mem_cons_self _ _))
      have hne : t' ≠ t := hmiss (t', v) (List.mem_cons_self _ _)
      have hij : j ≠ i := fun hji => hne (lookup_inj hnodup (hji ▸ hj) ht)
      have hset : Quotes.set s t' v =
          { s with heap := fun k => if k = j then v else s.heap k } := by
        simp [Quotes.set, Quotes.get, hj]
      show (Quotes.update (Quotes.set s t' v) rest).heap i = s.heap i
      rw [hset]
      rw [ih _ (by simpa using hnodup) (by simpa using ht)
        (fun p hp => hmiss p (List.mem_cons_of_mem _ hp))
        (fun p hp => by simpa using hreg p (List.mem_cons_of_mem _ hp))]
      exact if_neg (Ne.symm hij)

/-- Unfolding of `get_implied_rate` to its Newton loop with the resolved
target factor. -/
lemma get_implied_rate_eq (fairRate : OvernightIndexedSwap → ℚ) (curve : Curve)
    (prior_implied_rate : ℚ) (effective_date maturity_date : ℤ)
    (calendar : Calendar) (tgt_compound_factor : Option ℚ)
    (precision h : ℚ) (fuel : ℕ) :
    get_implied_rate fairRate curve prior_implied_rate effective_date
        maturity_date calendar tgt_compound_factor precision h fuel =
      newton_iterate
        (fun g => get_compound_factor g effective_date maturity_date calendar)
        (resolve_target fairRate curve effective_date maturity_date
          tgt_compound_factor)
        precision h fuel prior_implied_rate := by
  cases tgt_compound_factor with
  | none => simp only [get_implied_rate, resolve_target]
  | some t => simp only [get_implied_rate, resolve_target]

/-! ## The claims -/

/-- C1: every value `r` returned by `get_implied_rate` (for any supplied or
defaulted target factor and any precision) round-trips through the compounding
function: `|get_compound_factor(r, effective, maturity, calendar) - T| ≤ p`,
where `T` is the target factor the call used and `p` its precision. -/
theorem C1_implied_rate_round_trip (fairRate : OvernightIndexedSwap → ℚ)
    (curve : Curve) (prior_implied_rate : ℚ) (effective_date maturity_date : ℤ)
    (calendar : Calendar) (tgt_compound_factor : Option ℚ) (precision h : ℚ)
    (fuel : ℕ) (r : ℚ)
    (hret : get_implied_rate fairRate curve prior_implied_rate effective_date
      maturity_date calendar tgt_compound_factor precision h fuel =
        some (PyResult.ok r)) :
    |get_compound_factor r effective_date maturity_date calendar -
        resolve_target fairRate curve effective_date maturity_date
          tgt_compound_factor| ≤ precision := by
  rw [get_implied_rate_eq] at hret
  exact newton_iterate_ok
    (fun g => get_compound_factor g effective_date maturity_date calendar)
    (resolve_target fairRate curve effective_date maturity_date
      tgt_compound_factor)
    precision h fuel prior_implied_rate r hret

/-- Witness for C1: on a one-business-day window with the default precision,
the solver returns `0.05` for the target factor `1 + 0.05/360`, and the
returned rate satisfies the round-trip bound. -/
theorem C1_witness :
    |get_compound_factor (1/20) 0 1 ⟨fun _ => true⟩ -
      resolve_target (fun _ => 0) ⟨0, 0, ⟨"Fed Funds", 0, 0⟩, [], 0⟩ 0 1
        (some (1 + 1/7200))| ≤ 1/10000000 := by
  have hcf : get_compound_factor (1/20) 0 1 ⟨fun _ => true⟩ = 1 + 1/7200 := by
    have hdates : businessDayList ⟨fun _ => true⟩ 0 (1 - 1) ++ [1] = [0, 1] := by
      decide
    simp only [get_compound_factor, hdates]
    norm_num [List.dropLast, List.zip, List.zipWith, List.foldl]
  refine C1_implied_rate_round_trip (fun _ => 0)
    ⟨0, 0, ⟨"Fed Funds", 0, 0⟩, [], 0⟩
    (1/20) 0 1 ⟨fun _ => true⟩ (some (1 + 1/7200)) (1/10000000) (1/1000000) 1
    (1/20) ?_
  rw [get_implied_rate_eq, newton_iterate]
  simp only [resolve_target, hcf]
  norm_num

/-- C2: `get_compound_factor(r, effective, maturity, calendar)` equals the
product, over consecutive pairs `(d1, d2)` of the list of the calendar's
business days from `effective` through `maturity - 1` with `maturity`
appended, of `1 + r * (d2 - d1) / 360`, where `d2 - d1` is the actual day
count between the two dates. -/
theorem C2_compound_factor_product (rate : ℚ) (effective_date maturity_date : ℤ)
    (calendar : Calendar) :
    get_compound_factor rate effective_date maturity_date calendar =
      (((businessDayList calendar effective_date (maturity_date - 1) ++
            [maturity_date]).zip
          (businessDayList calendar effective_date (maturity_date - 1) ++
            [maturity_date]).tail).map
        (fun p => 1 + rate * ((p.2 - p.1 : ℤ) : ℚ) / 360)).prod := by
  simp only [get_compound_factor]
  rw [dropLast_zip_tail, foldl_mul_factor, one_mul]

/-- C3: the Newton loop of `get_implied_rate` has no iteration cap and, for an
input whose target factor the compounding function can never approach (here a
two-business-day window with target factor `-1`, unreachable because the
compound factor `(1 + r/360)^2` is nonnegative), no fuel bound ever makes the
call return a rate: for every iteration count it is either still looping or
has died with a raw `ZeroDivisionError`; no typed non-convergence failure
exists in the code. -/
theorem C3_newton_no_termination (fairRate : OvernightIndexedSwap → ℚ)
    (curve : Curve) (prior_implied_rate : ℚ) (fuel : ℕ) :
    get_implied_rate fairRate curve prior_implied_rate 0 2 ⟨fun _ => true⟩
        (some (-1)) (1/10000000) (1/1000000) fuel = none ∨
      get_implied_rate fairRate curve prior_implied_rate 0 2 ⟨fun _ => true⟩
        (some (-1)) (1/10000000) (1/1000000) fuel =
          some (PyResult.error PyErr.zeroDivisionError) := by
  have hdates : businessDayList ⟨fun _ => true⟩ 0 (2 - 1) ++ [2] = [0, 1, 2] := by
    decide
  have hcf : ∀ g : ℚ, get_compound_factor g 0 2 ⟨fun _ => true⟩ =
      (1 + g * 1 / 360) * (1 + g * 1 / 360) := by
    intro g
    simp only [get_compound_factor, hdates]
    norm_num [List.dropLast, List.zip, List.zipWith, List.foldl]
  have hall : ∀ g : ℚ,
      ¬ |get_compound_factor g 0 2 ⟨fun _ => true⟩ - (-1)| ≤ 1/10000000 := by
    intro g
    rw [hcf]
    have h0 : (0:ℚ) ≤ (1 + g * 1/360) * (1 + g * 1/360) := mul_self_nonneg _
    rw [abs_of_nonneg (by linarith)]
    intro hle
    linarith
  exact newton_iterate_no_exit _ _ _ _ hall fuel prior_implied_rate

/-- C4: with `tgt_compound_factor = None`, the target factor the iteration
uses is `1 + fairSwapRate * (maturity - effective) / 360`, where
`fairSwapRate` is the fair rate (as computed by the external pricer) of the
synthetic one-day-tenor overnight-indexed swap that `make_fed_funds_swap`
builds over `[effective, maturity]`, fixed rate solved against the curve's
discount handle; the defaulted call behaves exactly like a call supplied with
that factor. -/
theorem C4_default_target_factor (fairRate : OvernightIndexedSwap → ℚ)
    (curve : Curve) (prior_implied_rate : ℚ) (effective_date maturity_date : ℤ)
    (calendar : Calendar) (precision h : ℚ) (fuel : ℕ) :
    get_implied_rate fairRate curve prior_implied_rate effective_date
        maturity_date calendar none precision h fuel =
      get_implied_rate fairRate curve prior_implied_rate effective_date
        maturity_date calendar
        (some (1 + fairRate (make_fed_funds_swap curve.index effective_date
              maturity_date curve.disc_handle) *
            ((maturity_date - effective_date : ℤ) : ℚ) / 360))
        precision h fuel ∧
    make_fed_funds_swap curve.index effective_date maturity_date
        curve.disc_handle =
      { swapTenor := "1D", overnightIndex := curve.index, fixedRate := 5/100,
        effectiveDate := effective_date, terminationDate := maturity_date,
        paymentFrequency := "Annual", paymentLag := 2,
        fixedLegDayCount := "Actual360",
        discountingTermStructure := curve.disc_handle,
        telescopicValueDates := false } :=
  ⟨rfl, rfl⟩

/-- C5: `Quotes.get` returns the already-registered quote when one exists and
otherwise creates exactly one new quote initialized to `0.0` and registers it;
repeated calls return the identical quote instance; and a value written by
`update()` for a ticker is immediately visible through the handle issued by an
earlier `get` of that ticker, without re-fetching the handle. -/
theorem C5_quote_registry_identity (s : QuotesState) (t : String) (v : ℚ) :
    (∀ i, s.table.lookup t = some i → Quotes.get s t = (i, s)) ∧
    (s.table.lookup t = none →
      (Quotes.get s t).1 = s.next ∧
      (Quotes.get s t).2.table = s.table ++ [(t, s.next)] ∧
      (Quotes.get s t).2.heap s.next = 0 ∧
      (∀ j, j ≠ s.next → (Quotes.get s t).2.heap j = s.heap j) ∧
      (Quotes.get s t).2.next = s.next + 1) ∧
    Quotes.get (Quotes.get s t).2 t = ((Quotes.get s t).1, (Quotes.get s t).2) ∧
    (Quotes.update (Quotes.get s t).2 [(t, v)]).heap (Quotes.get s t).1 = v := by
  cases hlook : s.table.lookup t with
  | some i =>
      refine ⟨?_, ?_, ?_, ?_⟩
      · intro i' hi'
        obtain rfl : i = i' := by simpa using hi'
        simp [Quotes.get, hlook]
      · intro hnone; exact absurd hnone (by simp)
      · simp [Quotes.get, hlook]
      · simp [Quotes.update, Quotes.set, Quotes.get, hlook]
  | none =>
      have hget : Quotes.get s t =
          (s.next,
            { table := s.table ++ [(t, s.next)],
              heap := fun j => if j = s.next then 0 else s.heap j,
              next := s.next + 1 }) := by
        simp [Quotes.get, hlook]
      have hlook2 : (s.table ++ [(t, s.next)]).lookup t = some s.next := by
        rw [lookup_append_of_none hlook]
        simp [List.lookup]
      refine ⟨?_, ?_, ?_, ?_⟩
      · intro i' hi'; exact absurd hi' (by simp)
      · intro _
        refine ⟨by rw [hget], by rw [hget], by rw [hget]; simp, ?_, by rw [hget]⟩
        intro j hj
        rw [hget]
        exact if_neg hj
      · rw [hget]
        simp [Quotes.get, hlook2]
      · rw [hget]
        simp [Quotes.update, Quotes.set, Quotes.get, hlook2]

/-- Witness for C5: starting from the empty registry, `get("X")` issues quote
id 0 and, after an update whose response carries `0.05` for `"X"`, the
earlier handle reads `0.05`. -/
theorem C5_witness :
    (Quotes.get ⟨[], fun _ => 0, 0⟩ "X").1 = 0 ∧
    (Quotes.update (Quotes.get ⟨[], fun _ => 0, 0⟩ "X").2 [("X", 1/20)]).heap
      (Quotes.get ⟨[], fun _ => 0, 0⟩ "X").1 = 1/20 := by
  have h := C5_quote_registry_identity ⟨[], fun _ => 0, 0⟩ "X" (1/20)
  exact ⟨(h.2.1 rfl).1, h.2.2.2⟩

/-- C6: when the provider response has no row for a registered ticker `t`,
both registries leave the quote of `t` at its prior value, and neither
`update` raises, given that the rows the provider did return are for
registered tickers (the provider is queried with exactly the registered key
list) and that the registry maps tickers to quote instances injectively, as
every reachable registry state does. -/
theorem C6_missing_rows_preserved (s : QuotesState) (rows : List (String × ℚ))
    (t : String) (i : ℕ)
    (hnodup : (s.table.map Prod.snd).Nodup)
    (ht : s.table.lookup t = some i)
    (hmiss : ∀ p ∈ rows, p.1 ≠ t)
    (hreg : ∀ p ∈ rows, (s.table.lookup p.1).isSome) :
    (Quotes.update s rows).heap i = s.heap i ∧
    S45.Quotes.update s rows = PyResult.ok (Quotes.update s rows) :=
  ⟨update_preserves_missing rows s hnodup ht hmiss hreg, S45_update_ok rows s hreg⟩

/-- Witness for C6: with `"Y"` at `0.03` and `"Z"` registered, an update whose
response only carries a row for `"Z"` leaves `"Y"` at `0.03` and raises
nothing in either registry. -/
theorem C6_witness :
    (Quotes.update ⟨[("Y", 0), ("Z", 1)], fun j => if j = 0 then 3/100 else 0, 2⟩
        [("Z", 1/20)]).heap 0 =
      (fun j => if j = 0 then (3:ℚ)/100 else 0) 0 ∧
    S45.Quotes.update ⟨[("Y", 0), ("Z", 1)], fun j => if j = 0 then 3/100 else 0, 2⟩
        [("Z", 1/20)] =
      PyResult.ok (Quotes.update
        ⟨[("Y", 0), ("Z", 1)], fun j => if j = 0 then 3/100 else 0, 2⟩
        [("Z", 1/20)]) :=
  C6_missing_rows_preserved
    ⟨[("Y", 0), ("Z", 1)], fun j => if j = 0 then 3/100 else 0, 2⟩
    [("Z", 1/20)] "Y" 0 (by decide) (by decide) (by decide) (by decide)

/-- C7 (amended): `get_cur_implied_on_ticker`, given the spot date and the
calendar advance function, selects the shortest available OIS tenor bucket
whose advance from spot does not pass the first policy date STRICTLY AFTER
spot (the claim said on or after spot; the source filters with a strict
comparison), returning that bucket's `(tenor, ticker)`; it returns `None` when
no bucket suffices, in which case the caller falls back to the raw current
overnight index level, the value of the `FEDL01 Index` quote. -/
theorem C7_tenor_bucket_selection (spot_date : ℤ) (advance : String → ℤ)
    (policy_dates : List ℤ) (fedl01 : ℚ) :
    (∀ tenor ticker,
      get_cur_implied_on_ticker spot_date advance policy_dates =
          PyResult.ok (some (tenor, ticker)) →
        ∃ fpd, (policy_dates.filter (fun d => spot_date < d)).head? = some fpd ∧
          advance tenor ≤ fpd ∧
          ∃ l₁ l₂, preferred_tickers = l₁ ++ (tenor, ticker) :: l₂ ∧
            ∀ p ∈ l₁, ¬ advance p.1 ≤ fpd) ∧
    (get_cur_implied_on_ticker spot_date advance policy_dates =
        PyResult.ok none →
      (∃ fpd, (policy_dates.filter (fun d => spot_date < d)).head? = some fpd ∧
        ∀ p ∈ preferred_tickers, ¬ advance p.1 ≤ fpd) ∧
      cur_implied_on_rate fedl01 none = Sum.inl fedl01) := by
  constructor
  · intro tenor ticker hres
    cases hh : (policy_dates.filter (fun d => spot_date < d)).head? with
    | none =>
        simp only [get_cur_implied_on_ticker, hh] at hres
        exact absurd hres (by simp)
    | some fpd =>
        simp only [get_cur_implied_on_ticker, hh] at hres
        have hfind : preferred_tickers.find?
            (fun p => advance p.1 ≤ fpd) = some (tenor, ticker) := by
          simpa using hres
        obtain ⟨l₁, l₂, hsplit, hfail, hp⟩ := find?_split hfind
        refine ⟨fpd, rfl, by simpa using hp, l₁, l₂, hsplit, ?_⟩
        intro p hp₁
        simpa using hfail p hp₁
  · intro hres
    cases hh : (policy_dates.filter (fun d => spot_date < d)).head? with
    | none =>
        simp only [get_cur_implied_on_ticker, hh] at hres
        exact absurd hres (by simp)
    | some fpd =>
        simp only [get_cur_implied_on_ticker, hh] at hres
        have hfind : preferred_tickers.find?
            (fun p => advance p.1 ≤ fpd) = none := by
          simpa using hres
        refine ⟨⟨fpd, rfl, ?_⟩, rfl⟩
        intro p hp
        simpa using List.find?_eq_none.mp hfind p hp

/-- Counterexample to C7 as stated: with spot 100, a policy date AT spot and
one 100 days later, and an advance putting the 1W bucket at day 107, the
source selects the 1W bucket (driven by the strictly-later date 200), while
the claim's selection, driven by the first policy date on or after spot
(day 100, which no bucket's advance covers), returns `None`. -/
theorem C7_counterexample :
    get_cur_implied_on_ticker 100 (fun t => if t = "1W" then 107 else 200)
        [100, 200] = PyResult.ok (some ("1W", "USSO1Z Curncy")) ∧
    get_cur_implied_on_ticker_claim 100 (fun t => if t = "1W" then 107 else 200)
        [100, 200] = PyResult.ok none := by
  constructor <;> decide

/-- Witness for C7: at the counterexample input the source returns the 1W
bucket and the amended characterization holds of it. -/
theorem C7_witness :
    ∃ fpd, (([100, 200] : List ℤ).filter (fun d => (100:ℤ) < d)).head? = some fpd ∧
      (fun t => if t = "1W" then (107:ℤ) else 200) "1W" ≤ fpd ∧
      ∃ l₁ l₂, preferred_tickers = l₁ ++ ("1W", "USSO1Z Curncy") :: l₂ ∧
        ∀ p ∈ l₁, ¬ (fun t => if t = "1W" then (107:ℤ) else 200) p.1 ≤ fpd :=
  (C7_tenor_bucket_selection 100 (fun t => if t = "1W" then 107 else 200)
    [100, 200] 0).1 "1W" "USSO1Z Curncy" (by decide)

/-- C8: the first `Calendars.get(id)` performs exactly one holiday fetch,
builds a calendar whose weekend days are QuantLib weekdays 1 and 7 (Sunday
and Saturday) and whose holidays are exactly the fetched dates, and caches
it; any call finding `id` cached returns that same calendar with zero
provider calls and an unchanged registry, so a cached calendar is never
invalidated. -/
theorem C8_calendar_registry_cache (provider : String → List ℤ)
    (s : CalendarsState) (cid : String) :
    (s.table.lookup cid = none →
      (Calendars.get provider s cid).2.2 = 1 ∧
      (Calendars.get provider s cid).1.weekends = [1, 7] ∧
      (Calendars.get provider s cid).1.holidays = provider cid ∧
      (Calendars.get provider s cid).2.1.table.lookup cid =
        some (Calendars.get provider s cid).1) ∧
    (∀ c, s.table.lookup cid = some c →
      Calendars.get provider s cid = (c, s, 0)) := by
  constructor
  · intro hnone
    have hget : Calendars.get provider s cid =
        (⟨cid, [1, 7], provider cid⟩,
          ⟨s.table ++ [(cid, ⟨cid, [1, 7], provider cid⟩)]⟩, 1) := by
      simp [Calendars.get, hnone]
    rw [hget]
    refine ⟨rfl, rfl, rfl, ?_⟩
    show (s.table ++ [(cid, _)]).lookup cid = _
    rw [lookup_append_of_none hnone]
    simp [List.lookup]
  · intro c hc
    simp [Calendars.get, hc]

/-- Witness for C8: a first fetch of the FD calendar costs one provider call
and sets the weekend days, and a repeat call is a pure cache hit. -/
theorem C8_witness :
    (Calendars.get (fun _ => [5]) ⟨[]⟩ "FD").2.2 = 1 ∧
    (Calendars.get (fun _ => [5]) ⟨[]⟩ "FD").1.weekends = [1, 7] ∧
    Calendars.get (fun _ => [5]) ⟨[("FD", ⟨"FD", [1, 7], [5]⟩)]⟩ "FD" =
      (⟨"FD", [1, 7], [5]⟩, ⟨[("FD", ⟨"FD", [1, 7], [5]⟩)]⟩, 0) := by
  have h1 := (C8_calendar_registry_cache (fun _ => [5]) ⟨[]⟩ "FD").1 rfl
  have h2 := (C8_calendar_registry_cache (fun _ => [5])
    ⟨[("FD", ⟨"FD", [1, 7], [5]⟩)]⟩ "FD").2 ⟨"FD", [1, 7], [5]⟩ rfl
  exact ⟨h1.1, h1.2.1, h2⟩

/-- C9: `get_cur_implied_on_ticker` is total only when some policy date lies
strictly after the spot date: indexing position 0 of the filtered list raises
`IndexError` (rather than returning `None`) when every policy date is at or
before spot, and succeeds whenever some policy date is strictly after spot. -/
theorem C9_selector_needs_future_date (spot_date : ℤ) (advance : String → ℤ)
    (policy_dates : List ℤ) :
    ((∀ d ∈ policy_dates, d ≤ spot_date) →
      get_cur_implied_on_ticker spot_date advance policy_dates =
        PyResult.error PyErr.indexError) ∧
    (∀ d ∈ policy_dates, spot_date < d →
      ∃ v, get_cur_implied_on_ticker spot_date advance policy_dates =
        PyResult.ok v) := by
  constructor
  · intro hall
    have hfilter : policy_dates.filter (fun d => spot_date < d) = [] := by
      rw [List.filter_eq_nil_iff]
      intro a ha
      simp only [decide_eq_true_eq, not_lt]
      exact hall a ha
    simp [get_cur_implied_on_ticker, hfilter]
  · intro d hd hlt
    cases hh : (policy_dates.filter (fun x => spot_date < x)).head? with
    | none =>
        exfalso
        have hnil := List.head?_eq_none_iff.mp hh
        have := List.filter_eq_nil_iff.mp hnil d hd
        simp [hlt] at this
    | some fpd =>
        refine ⟨preferred_tickers.find? (fun p => advance p.1 ≤ fpd), ?_⟩
        simp [get_cur_implied_on_ticker, hh]

/-- Witness for C9: with every policy date at or before spot the call raises
`IndexError`; with a policy date strictly after spot it returns normally. -/
theorem C9_witness :
    get_cur_implied_on_ticker 0 (fun _ => 3) [-1] =
      PyResult.error PyErr.indexError ∧
    ∃ v, get_cur_implied_on_ticker 0 (fun _ => 3) [5] = PyResult.ok v :=
  ⟨(C9_selector_needs_future_date 0 (fun _ => 3) [-1]).1 (by decide),
   (C9_selector_needs_future_date 0 (fun _ => 3) [5]).2 5 (by decide) (by decide)⟩

/-- C10 (amended): the two `Quotes` registries implement the same `get`, and
their `update` methods agree (equal resulting states, no error) on every
provider response whose rows are all for registered securities; they diverge
only on a row for a security never registered via `get`, where the wirp.py
variant creates and writes a fresh quote while the curve_s45.py variant
raises `KeyError`. -/
theorem C10_quotes_registries_agree :
    (∀ (s : QuotesState) (t : String), S45.Quotes.get s t = Quotes.get s t) ∧
    (∀ (s : QuotesState) (rows : List (String × ℚ)),
      (∀ p ∈ rows, (s.table.lookup p.1).isSome) →
      S45.Quotes.update s rows = PyResult.ok (Quotes.update s rows)) :=
  ⟨fun _ _ => rfl, fun s rows h => S45_update_ok rows s h⟩

/-- Counterexample to C10 as stated: on a response carrying a row for the
unregistered security `"X"`, the curve_s45.py update raises `KeyError` while
the wirp.py update raises nothing and registers `"X"` with the delivered
value, so the two registries do not implement the same update behaviour. -/
theorem C10_counterexample :
    S45.Quotes.update ⟨[], fun _ => 0, 0⟩ [("X", 1/20)] =
      PyResult.error PyErr.keyError ∧
    (Quotes.update ⟨[], fun _ => 0, 0⟩ [("X", 1/20)]).table.lookup "X" = some 0 ∧
    (Quotes.update ⟨[], fun _ => 0, 0⟩ [("X", 1/20)]).heap 0 = 1/20 :=
  ⟨rfl, rfl, rfl⟩

/-- Witness for C10: on a response whose single row is for a registered
security the two updates produce the same state and no error. -/
theorem C10_witness :
    S45.Quotes.update ⟨[("X", 0)], fun _ => 0, 1⟩ [("X", 1/20)] =
      PyResult.ok (Quotes.update ⟨[("X", 0)], fun _ => 0, 1⟩ [("X", 1/20)]) :=
  C10_quotes_registries_agree.2 ⟨[("X", 0)], fun _ => 0, 1⟩ [("X", 1/20)]
    (by decide)
